import Mathlib

/-!
# Verification of the logdna batching client (`logdna.go`)

A shallow embedding of the Go package `logdna`: a client that buffers log
lines in memory and ships them as a JSON document over HTTP to the LogDNA
ingest endpoint.

Modelling choices:
* `time.Time` values appear only through `t.UnixNano()`, so a log time is
  embedded as its Unix-nanosecond value (`Int`, Go `int64`).
* Go `int` arithmetic on buffer sizes is embedded as `Int` (line counts
  are list lengths no reachable execution overflows); the one place the
  program multiplies a configured value, `10*cfg.FlushLimit`, is computed
  with explicit 64-bit wrap-around (`wrap64`).
* The two external calls (`encoding/json.Marshal` and `net/http.Post`) are
  parameters of the embedding, gathered in an `Env`; `goJSONMarshal` is the
  concrete behaviour of `encoding/json.Marshal` on the `payloadJSON` type
  (it always succeeds on this type and produces the tagged-field document).
* The background goroutine started by `NewClient` is embedded as an explicit
  step function `workerStep` on a state holding the client and the channel
  contents (`queue`), iterated by `runWorker`.  `fmt.Println` of a flush
  error is recorded in the `logged` field of a step result.
* `make(chan *entry, n)` panics in the Go runtime when `n` is negative or
  when the buffer would exceed the platform's allocatable memory; this is
  embedded by `makeChan`, parameterised by the platform's largest
  allocatable capacity, returning `Except.error` with the runtime's panic
  message, and `NewClient` propagating it.
-/

namespace Logdna

/-- `DefaultFlushLimit` from the source: lines buffered before a flush. -/
def DefaultFlushLimit : Int := 5000

/-- `Config`: construction-time configuration of a client. -/
structure Config where
  APIKey : String
  LogFile : String
  Hostname : String
  FlushLimit : Int
deriving DecidableEq

/-- `logLineJSON`: one line of the ingest payload (`timestamp`, `line`, `file`). -/
structure logLineJSON where
  Timestamp : Int
  Line : String
  File : String
deriving DecidableEq

/-- `payloadJSON`: the whole ingest payload (`lines`). -/
structure payloadJSON where
  Lines : List logLineJSON
deriving DecidableEq

/-- The data `makeIngestURL` embeds into the endpoint URL that later calls
depend on: the API key as the user-info component and the hostname query
parameter.  (The base URL and the constant `now` parameter are fixed.) -/
structure URLData where
  user : String
  hostname : String
deriving DecidableEq

/-- `makeIngestURL`: builds the ingest endpoint from the configuration. -/
def makeIngestURL (cfg : Config) : URLData :=
  { user := cfg.APIKey, hostname := cfg.Hostname }

/-- `Client`: configuration, buffered payload, and the derived endpoint.
The channel `q` is carried separately in `WorkerState`. -/
structure Client where
  config : Config
  payload : payloadJSON
  apiURL : URLData
deriving DecidableEq

/-- A JSON document, as produced by `encoding/json` on the payload types. -/
inductive JsonValue where
  | str : String → JsonValue
  | int : Int → JsonValue
  | arr : List JsonValue → JsonValue
  | obj : List (String × JsonValue) → JsonValue

/-- The document `encoding/json.Marshal` produces for one `logLineJSON`,
following the struct tags `json:"timestamp"`, `json:"line"`, `json:"file"`. -/
def marshalLogLine (l : logLineJSON) : JsonValue :=
  .obj [("timestamp", .int l.Timestamp), ("line", .str l.Line), ("file", .str l.File)]

/-- The document `encoding/json.Marshal` produces for a `payloadJSON`,
following the struct tag `json:"lines"`. -/
def marshalPayload (p : payloadJSON) : JsonValue :=
  .obj [("lines", .arr (p.Lines.map marshalLogLine))]

/-- An HTTP response as seen by the client: status code and body.  The code
never inspects either field. -/
structure HTTPResponse where
  statusCode : Nat
  body : String

/-- The external world of a flush: the outcome of `encoding/json.Marshal`
and of `net/http.Post`.  Errors are their Go error strings. -/
structure Env where
  marshal : payloadJSON → Except String JsonValue
  post : URLData → JsonValue → Except String HTTPResponse

/-- The actual behaviour of `encoding/json.Marshal` on `payloadJSON`: it
always succeeds on this type (only strings and integers) and produces the
tagged-field document. -/
def goJSONMarshal : payloadJSON → Except String JsonValue :=
  fun p => Except.ok (marshalPayload p)

/-- An environment in which every marshal and every POST succeeds. -/
def Env.good (env : Env) : Prop :=
  (∀ p, ∃ j, env.marshal p = Except.ok j) ∧
    ∀ u j, ∃ r, env.post u j = Except.ok r

/-- One POST attempted by `Flush` (`http.Post(url, "application/json", body)`). -/
structure PostRequest where
  url : URLData
  contentType : String
  body : JsonValue

/-- Result of `Flush`/`log`: the client afterwards, the returned `error`
(`none` = `nil`), and the POSTs attempted during the call. -/
structure FlushResult where
  client : Client
  err : Option String
  requests : List PostRequest

/-- `Size`: the number of lines waiting to be sent (Go `int`). -/
def Client.Size (c : Client) : Int :=
  c.payload.Lines.length

/-- `Flush`: no-op on an empty buffer; otherwise marshal, POST, and clear
the buffer only when the POST returned a response. -/
def Client.Flush (c : Client) (env : Env) : FlushResult :=
  if c.Size = 0 then ⟨c, none, []⟩
  else
    match env.marshal c.payload with
    | .error e => ⟨c, some e, []⟩
    | .ok jsonPayload =>
      match env.post c.apiURL jsonPayload with
      | .error e => ⟨c, some e, [⟨c.apiURL, "application/json", jsonPayload⟩]⟩
      | .ok _resp => ⟨{ c with payload := ⟨[]⟩ }, none, [⟨c.apiURL, "application/json", jsonPayload⟩]⟩

/-- `Close`: the body of `Close` is `return c.Flush()`. -/
def Client.Close (c : Client) (env : Env) : FlushResult :=
  c.Flush env

/-- The `logLineJSON` literal built inside `log`: timestamp is
`t.UnixNano() / 1000000` with Go's truncating (toward zero) `int64`
division, which is `Int.tdiv`. -/
def mkLogLine (file : String) (tNano : Int) (msg : String) : logLineJSON :=
  { Timestamp := Int.tdiv tNano 1000000, Line := msg, File := file }

/-- The `append` in `log`: the new line is appended to the payload. -/
def appendLine (c : Client) (tNano : Int) (msg : String) : Client :=
  { c with payload := ⟨c.payload.Lines ++ [mkLogLine c.config.LogFile tNano msg]⟩ }

/-- `log` (lowercase, worker side): append the line, then flush when
`Size() >= FlushLimit`. -/
def Client.log (c : Client) (env : Env) (tNano : Int) (msg : String) : FlushResult :=
  let c' := appendLine c tNano msg
  if c'.Size ≥ c.config.FlushLimit then c'.Flush env
  else ⟨c', none, []⟩

/-- The worker's state: the client and the contents of the channel `q`
(head = next entry to be received). -/
structure WorkerState where
  client : Client
  queue : List (Int × String)

/-- `Log` (public, producer side): enqueue the entry at the back of `q`.
It returns nothing: no error can reach the producer. -/
def WorkerState.Log (s : WorkerState) (tNano : Int) (msg : String) : WorkerState :=
  { s with queue := s.queue ++ [(tNano, msg)] }

/-- Result of worker steps: the state afterwards, the POSTs attempted, and
the errors printed by `fmt.Println(err)`. -/
structure StepResult where
  state : WorkerState
  requests : List PostRequest
  logged : List String

/-- One iteration of the goroutine in `NewClient`: receive an entry, run
`log`; on error print it and re-enqueue the same entry via `Log`. -/
def workerStep (env : Env) (s : WorkerState) : StepResult :=
  match s.queue with
  | [] => ⟨s, [], []⟩
  | e :: rest =>
    let r := s.client.log env e.1 e.2
    match r.err with
    | none => ⟨⟨r.client, rest⟩, r.requests, []⟩
    | some er => ⟨⟨r.client, rest ++ [e]⟩, r.requests, [er]⟩

/-- `n` iterations of the goroutine, accumulating attempted POSTs and
printed errors. -/
def runWorker (env : Env) (s : WorkerState) : Nat → StepResult
  | 0 => ⟨s, [], []⟩
  | n + 1 =>
    let r := workerStep env s
    let r' := runWorker env r.state n
    ⟨r'.state, r.requests ++ r'.requests, r.logged ++ r'.logged⟩

/-- The defaulting at the top of `NewClient`: `if cfg.FlushLimit == 0`. -/
def effectiveFlushLimit (n : Int) : Int :=
  if n = 0 then DefaultFlushLimit else n

/-- Smallest value of Go's 64-bit `int`. -/
def int64Min : Int := -9223372036854775808

/-- Largest value of Go's 64-bit `int`. -/
def int64Max : Int := 9223372036854775807

/-- Go 64-bit `int` arithmetic wraps around: reduce a mathematical integer
into `[int64Min, int64Max]` two's-complement style. -/
def wrap64 (n : Int) : Int :=
  (n + 9223372036854775808) % 18446744073709551616 - 9223372036854775808

/-- Models the Go runtime's `make(chan *entry, n)`: it panics with
`makechan: size out of range` when `n` is negative, and equally when the
channel's backing buffer would exceed the platform's allocatable memory;
`maxCap` is the platform-dependent largest allocatable capacity for this
element type. -/
def makeChan (maxCap : Int) (capacity : Int) : Except String Int :=
  if capacity < 0 ∨ maxCap < capacity then Except.error "makechan: size out of range"
  else Except.ok capacity

/-- A representative largest allocatable `chan *entry` capacity on a
64-bit platform (8-byte elements, 48-bit heap address space). -/
def maxChanCap64 : Int := 2 ^ 45

/-- What `NewClient` hands back, together with the capacity of the channel
it allocated. -/
structure ClientInit where
  client : Client
  queueCapacity : Int
deriving DecidableEq

/-- `NewClient`: default the flush limit, build the endpoint, allocate the
channel with capacity `10*cfg.FlushLimit` — the product computed in Go
`int` (64-bit, wrap-around) arithmetic — and start the worker.  The Go
function has no error result; the only way it can fail to return a client
is the channel-allocation panic, embedded as `Except.error`. -/
def NewClient (maxCap : Int) (cfg : Config) : Except String ClientInit :=
  let cfg' := { cfg with FlushLimit := effectiveFlushLimit cfg.FlushLimit }
  match makeChan maxCap (wrap64 (10 * cfg'.FlushLimit)) with
  | .error e => .error e
  | .ok cap => .ok ⟨⟨cfg', ⟨[]⟩, makeIngestURL cfg'⟩, cap⟩

/-- Repeated `log` appends, as performed by the worker while below the
flush limit. -/
def appendAll (c : Client) (entries : List (Int × String)) : Client :=
  entries.foldl (fun a e => appendLine a e.1 e.2) c

/-! ## Helper lemmas about the embedded operations -/

theorem Size_nonneg (c : Client) : 0 ≤ c.Size := by
  simp [Client.Size]

theorem wrap64_eq_self (n : Int) (h1 : int64Min ≤ n) (h2 : n ≤ int64Max) :
    wrap64 n = n := by
  unfold int64Min at h1
  unfold int64Max at h2
  unfold wrap64
  rw [Int.emod_eq_of_lt (by omega) (by omega)]
  omega

theorem appendLine_config (c : Client) (t : Int) (m : String) :
    (appendLine c t m).config = c.config := rfl

theorem appendLine_apiURL (c : Client) (t : Int) (m : String) :
    (appendLine c t m).apiURL = c.apiURL := rfl

theorem appendLine_size (c : Client) (t : Int) (m : String) :
    (appendLine c t m).Size = c.Size + 1 := by
  simp [Client.Size, appendLine]

theorem appendAll_config (entries : List (Int × String)) (c : Client) :
    (appendAll c entries).config = c.config := by
  induction entries generalizing c with
  | nil => rfl
  | cons e t ih => simpa [appendAll] using ih (appendLine c e.1 e.2)

theorem appendAll_apiURL (entries : List (Int × String)) (c : Client) :
    (appendAll c entries).apiURL = c.apiURL := by
  induction entries generalizing c with
  | nil => rfl
  | cons e t ih => simpa [appendAll] using ih (appendLine c e.1 e.2)

theorem appendAll_cons (c : Client) (e : Int × String) (t : List (Int × String)) :
    appendAll c (e :: t) = appendAll (appendLine c e.1 e.2) t := rfl

theorem appendAll_payload (entries : List (Int × String)) (c : Client) :
    (appendAll c entries).payload.Lines =
      c.payload.Lines ++ entries.map (fun e => mkLogLine c.config.LogFile e.1 e.2) := by
  induction entries generalizing c with
  | nil => simp [appendAll]
  | cons e t ih =>
    rw [appendAll_cons, ih, appendLine_config]
    simp [appendLine]

theorem appendAll_size (entries : List (Int × String)) (c : Client) :
    (appendAll c entries).Size = c.Size + entries.length := by
  simp [Client.Size, appendAll_payload]

theorem log_below (c : Client) (env : Env) (t : Int) (m : String)
    (h : c.Size + 1 < c.config.FlushLimit) :
    c.log env t m = ⟨appendLine c t m, none, []⟩ := by
  have hlt : ¬ (appendLine c t m).Size ≥ c.config.FlushLimit := by
    rw [appendLine_size]; omega
  simp [Client.log, hlt]

theorem log_flush_good (c : Client) (env : Env) (t : Int) (m : String)
    (hge : c.Size + 1 ≥ c.config.FlushLimit) (hgood : env.good) :
    ∃ j, env.marshal (appendLine c t m).payload = Except.ok j ∧
      c.log env t m = ⟨⟨c.config, ⟨[]⟩, c.apiURL⟩, none,
        [⟨c.apiURL, "application/json", j⟩]⟩ := by
  obtain ⟨hmar, hpost⟩ := hgood
  obtain ⟨j, hj⟩ := hmar (appendLine c t m).payload
  obtain ⟨r, hr⟩ := hpost c.apiURL j
  have hge' : (appendLine c t m).Size ≥ c.config.FlushLimit := by
    rw [appendLine_size]; omega
  have hne : ¬ (appendLine c t m).Size = 0 := by
    have := Size_nonneg c
    rw [appendLine_size]; omega
  refine ⟨j, hj, ?_⟩
  simp only [Client.log]
  rw [if_pos hge']
  simp only [Client.Flush, if_neg hne, hj, appendLine_apiURL, hr]
  simp [appendLine]

theorem workerStep_ok (env : Env) (s : WorkerState) (e : Int × String)
    (rest : List (Int × String)) (c' : Client) (reqs : List PostRequest)
    (hq : s.queue = e :: rest) (hr : s.client.log env e.1 e.2 = ⟨c', none, reqs⟩) :
    workerStep env s = ⟨⟨c', rest⟩, reqs, []⟩ := by
  simp [workerStep, hq, hr]

theorem workerStep_err (env : Env) (s : WorkerState) (e : Int × String)
    (rest : List (Int × String)) (c' : Client) (er : String)
    (reqs : List PostRequest)
    (hq : s.queue = e :: rest) (hr : s.client.log env e.1 e.2 = ⟨c', some er, reqs⟩) :
    workerStep env s = ⟨⟨c', rest ++ [e]⟩, reqs, [er]⟩ := by
  simp [workerStep, hq, hr]

theorem runWorker_below (env : Env) (entries tail : List (Int × String)) (c : Client)
    (h : c.Size + entries.length < c.config.FlushLimit) :
    runWorker env ⟨c, entries ++ tail⟩ entries.length =
      ⟨⟨appendAll c entries, tail⟩, [], []⟩ := by
  induction entries generalizing c with
  | nil => simp [runWorker, appendAll]
  | cons e t ih =>
    simp only [List.length_cons] at h
    push_cast at h
    have h1 : c.Size + 1 < c.config.FlushLimit := by
      have h0 : (0 : Int) ≤ t.length := by positivity
      omega
    have hstep := workerStep_ok env ⟨c, (e :: t) ++ tail⟩ e (t ++ tail)
      (appendLine c e.1 e.2) [] rfl (log_below c env e.1 e.2 h1)
    have h2 : (appendLine c e.1 e.2).Size + t.length <
        (appendLine c e.1 e.2).config.FlushLimit := by
      rw [appendLine_size, appendLine_config]; omega
    have htail := ih (appendLine c e.1 e.2) h2
    simp only [List.length_cons, runWorker, hstep, htail, appendAll, List.foldl_cons]
    simp [appendAll] at htail ⊢

theorem runWorker_add (env : Env) (s : WorkerState) (m n : Nat) :
    runWorker env s (m + n) =
      ⟨(runWorker env (runWorker env s m).state n).state,
       (runWorker env s m).requests ++ (runWorker env (runWorker env s m).state n).requests,
       (runWorker env s m).logged ++ (runWorker env (runWorker env s m).state n).logged⟩ := by
  induction m generalizing s with
  | zero => simp [runWorker]
  | succ k ih =>
    have hadd : k + 1 + n = (k + n) + 1 := by omega
    rw [hadd]
    simp only [runWorker]
    rw [ih (workerStep env s).state]
    simp

/-! ## Concrete fixtures used by the spot-check theorems -/

/-- A small configuration with flush limit 2. -/
def cfgA : Config := ⟨"key", "app.log", "host", 2⟩

/-- A small configuration with flush limit 1. -/
def cfgB : Config := ⟨"k", "f", "h", 1⟩

/-- A configuration with empty credentials and flush limit 0. -/
def cfgEmpty : Config := ⟨"", "f", "", 0⟩

/-- A configuration with a negative flush limit. -/
def cfgNeg : Config := ⟨"k", "f", "h", -1⟩

/-- A client holding one buffered line. -/
def clientA : Client := ⟨cfgA, ⟨[mkLogLine "app.log" 0 "a"]⟩, makeIngestURL cfgA⟩

/-- A client with an empty buffer. -/
def emptyA : Client := ⟨cfgA, ⟨[]⟩, makeIngestURL cfgA⟩

/-- Environment whose marshal step fails. -/
def envMarshalFail : Env :=
  ⟨fun _ => Except.error "marshal boom", fun _ _ => Except.ok ⟨200, ""⟩⟩

/-- Environment whose POST fails at the transport level. -/
def envPostFail : Env :=
  ⟨goJSONMarshal, fun _ _ => Except.error "connection refused"⟩

/-- Environment in which marshal and POST both succeed. -/
def envOk : Env := ⟨goJSONMarshal, fun _ _ => Except.ok ⟨200, "ok"⟩⟩

/-- `envOk` succeeds everywhere. -/
theorem envOk_good : envOk.good :=
  ⟨fun p => ⟨marshalPayload p, rfl⟩, fun _ _ => ⟨⟨200, "ok"⟩, rfl⟩⟩

/-! ## Claims -/

/-- C2: starting from a fresh client, while the worker has processed fewer
entries than `flushLimit`, `Size` equals the number of entries processed
and no POST is attempted; the moment the count reaches `flushLimit` a
flush is triggered, and with a succeeding environment `Size` drops back
to 0 (with exactly one POST attempted). -/
theorem worker_threshold_flush (cfg : Config) (url : URLData) (env : Env)
    (entries : List (Int × String)) (hgood : env.good) :
    (((entries.length : Int) < cfg.FlushLimit) →
       (runWorker env ⟨⟨cfg, ⟨[]⟩, url⟩, entries⟩ entries.length).state.client.Size
          = entries.length ∧
       (runWorker env ⟨⟨cfg, ⟨[]⟩, url⟩, entries⟩ entries.length).requests = []) ∧
    (((entries.length : Int) = cfg.FlushLimit) → 1 ≤ cfg.FlushLimit →
       (runWorker env ⟨⟨cfg, ⟨[]⟩, url⟩, entries⟩ entries.length).state.client.Size = 0 ∧
       (runWorker env ⟨⟨cfg, ⟨[]⟩, url⟩, entries⟩ entries.length).requests.length = 1) := by
  constructor
  · intro hlt
    have h : (⟨cfg, ⟨[]⟩, url⟩ : Client).Size + entries.length <
        (⟨cfg, ⟨[]⟩, url⟩ : Client).config.FlushLimit := by
      simpa [Client.Size] using hlt
    have hrun := runWorker_below env entries [] ⟨cfg, ⟨[]⟩, url⟩ h
    rw [List.append_nil] at hrun
    rw [hrun]
    refine ⟨?_, rfl⟩
    rw [appendAll_size]
    simp [Client.Size]
  · intro heq hpos
    rcases List.eq_nil_or_concat entries with hnil | ⟨init, b, rfl⟩
    · subst hnil
      simp at heq
      omega
    · simp only [List.concat_eq_append] at heq ⊢
      have hlen : (init ++ [b]).length = init.length + 1 := by simp
      have heq' : ((init.length : Int)) + 1 = cfg.FlushLimit := by
        rw [hlen] at heq
        push_cast at heq
        omega
      have h : (⟨cfg, ⟨[]⟩, url⟩ : Client).Size + init.length <
          (⟨cfg, ⟨[]⟩, url⟩ : Client).config.FlushLimit := by
        simp [Client.Size]
        omega
      have hrun := runWorker_below env init [b] ⟨cfg, ⟨[]⟩, url⟩ h
      rw [hlen, runWorker_add env _ init.length 1, hrun]
      have hc1size : (appendAll (⟨cfg, ⟨[]⟩, url⟩ : Client) init).Size = init.length := by
        rw [appendAll_size]
        simp [Client.Size]
      have hc1cfg : (appendAll (⟨cfg, ⟨[]⟩, url⟩ : Client) init).config = cfg :=
        appendAll_config _ _
      have hge : (appendAll (⟨cfg, ⟨[]⟩, url⟩ : Client) init).Size + 1 ≥
          (appendAll (⟨cfg, ⟨[]⟩, url⟩ : Client) init).config.FlushLimit := by
        rw [hc1size, hc1cfg]
        omega
      obtain ⟨j, hj, hlog⟩ :=
        log_flush_good (appendAll (⟨cfg, ⟨[]⟩, url⟩ : Client) init) env b.1 b.2 hge hgood
      have hstep := workerStep_ok env ⟨appendAll (⟨cfg, ⟨[]⟩, url⟩ : Client) init, [b]⟩ b []
        ⟨(appendAll (⟨cfg, ⟨[]⟩, url⟩ : Client) init).config, ⟨[]⟩,
          (appendAll (⟨cfg, ⟨[]⟩, url⟩ : Client) init).apiURL⟩
        [⟨(appendAll (⟨cfg, ⟨[]⟩, url⟩ : Client) init).apiURL, "application/json", j⟩] rfl hlog
      simp only [runWorker, hstep]
      exact ⟨by simp [Client.Size], rfl⟩

/-- Witness for C2 at flush limit 2: one entry leaves `Size = 1` with no
POST; two entries trigger the flush and leave `Size = 0` with one POST. -/
theorem worker_threshold_flush_spot :
    ((runWorker envOk ⟨⟨cfgA, ⟨[]⟩, makeIngestURL cfgA⟩, [((0 : Int), "a")]⟩ 1).state.client.Size = 1 ∧
     (runWorker envOk ⟨⟨cfgA, ⟨[]⟩, makeIngestURL cfgA⟩, [((0 : Int), "a")]⟩ 1).requests = []) ∧
    ((runWorker envOk ⟨⟨cfgA, ⟨[]⟩, makeIngestURL cfgA⟩, [((0 : Int), "a"), (1, "b")]⟩ 2).state.client.Size = 0 ∧
     (runWorker envOk ⟨⟨cfgA, ⟨[]⟩, makeIngestURL cfgA⟩, [((0 : Int), "a"), (1, "b")]⟩ 2).requests.length = 1) :=
  ⟨(worker_threshold_flush cfgA (makeIngestURL cfgA) envOk [(0, "a")] envOk_good).1
      (by decide),
   (worker_threshold_flush cfgA (makeIngestURL cfgA) envOk [(0, "a"), (1, "b")] envOk_good).2
      (by decide) (by decide)⟩

/-- C3: after a fresh client buffers a below-limit sequence of entries, a
successful explicit `Flush` POSTs exactly the JSON document
`{"lines": [...]}` holding the buffered lines in append order, each with
`line` the original message and `file` the configured `LogFile` label. -/
theorem flush_body_is_buffered_lines (cfg : Config) (url : URLData)
    (env env2 : Env) (entries : List (Int × String)) (resp : HTTPResponse)
    (hlen : (entries.length : Int) < cfg.FlushLimit) (hne : entries ≠ [])
    (hm : env2.marshal = goJSONMarshal)
    (hp : ∀ u j, env2.post u j = Except.ok resp) :
    ((runWorker env ⟨⟨cfg, ⟨[]⟩, url⟩, entries⟩ entries.length).state.client.Flush env2).err
        = none ∧
    ((runWorker env ⟨⟨cfg, ⟨[]⟩, url⟩, entries⟩ entries.length).state.client.Flush env2).requests
        = [⟨url, "application/json",
            JsonValue.obj [("lines", JsonValue.arr (entries.map (fun e =>
              JsonValue.obj [("timestamp", JsonValue.int (Int.tdiv e.1 1000000)),
                ("line", JsonValue.str e.2), ("file", JsonValue.str cfg.LogFile)])))]⟩] := by
  have h : (⟨cfg, ⟨[]⟩, url⟩ : Client).Size + entries.length <
      (⟨cfg, ⟨[]⟩, url⟩ : Client).config.FlushLimit := by
    simpa [Client.Size] using hlen
  have hrun := runWorker_below env entries [] ⟨cfg, ⟨[]⟩, url⟩ h
  rw [List.append_nil] at hrun
  rw [hrun]
  have hsize : (appendAll (⟨cfg, ⟨[]⟩, url⟩ : Client) entries).Size = entries.length := by
    rw [appendAll_size]
    simp [Client.Size]
  have hne0 : ¬ (appendAll (⟨cfg, ⟨[]⟩, url⟩ : Client) entries).Size = 0 := by
    rw [hsize]
    have hl : entries.length ≠ 0 := by simpa using hne
    simp [hl]
  have hurl : (appendAll (⟨cfg, ⟨[]⟩, url⟩ : Client) entries).apiURL = url :=
    appendAll_apiURL _ _
  have hlines : (appendAll (⟨cfg, ⟨[]⟩, url⟩ : Client) entries).payload.Lines =
      entries.map (fun e => mkLogLine cfg.LogFile e.1 e.2) := by
    rw [appendAll_payload]
    rfl
  simp only [Client.Flush, if_neg hne0, hm, goJSONMarshal, hurl, hp]
  constructor
  · trivial
  · simp [marshalPayload, hlines, List.map_map, marshalLogLine, mkLogLine, Function.comp]

/-- Witness for C3: one buffered line `"a"` at `t = 1500000` ns flushed
through a succeeding environment. -/
theorem flush_body_is_buffered_lines_spot :
    ((runWorker envOk ⟨⟨cfgA, ⟨[]⟩, makeIngestURL cfgA⟩, [((1500000 : Int), "a")]⟩ 1).state.client.Flush envOk).err
        = none ∧
    ((runWorker envOk ⟨⟨cfgA, ⟨[]⟩, makeIngestURL cfgA⟩, [((1500000 : Int), "a")]⟩ 1).state.client.Flush envOk).requests
        = [⟨makeIngestURL cfgA, "application/json",
            JsonValue.obj [("lines", JsonValue.arr ([((1500000 : Int), "a")].map (fun e =>
              JsonValue.obj [("timestamp", JsonValue.int (Int.tdiv e.1 1000000)),
                ("line", JsonValue.str e.2), ("file", JsonValue.str cfgA.LogFile)])))]⟩] :=
  flush_body_is_buffered_lines cfgA (makeIngestURL cfgA) envOk envOk
    [(1500000, "a")] ⟨200, "ok"⟩ (by decide) (by decide) rfl (fun _ _ => rfl)

/-- C1: if a caller-invoked `Flush` fails — the marshal step errors, or the
POST errors at the transport level — the error is returned and the client
(hence every buffered line, in order, and `Size`) is left exactly as it
was. -/
theorem flush_failure_preserves_buffer (c : Client) (env : Env) :
    (∀ e, c.Size ≠ 0 → env.marshal c.payload = Except.error e →
        c.Flush env = ⟨c, some e, []⟩) ∧
    (∀ j e, c.Size ≠ 0 → env.marshal c.payload = Except.ok j →
        env.post c.apiURL j = Except.error e →
        c.Flush env = ⟨c, some e, [⟨c.apiURL, "application/json", j⟩]⟩) := by
  constructor
  · intro e hs hm
    simp [Client.Flush, hs, hm]
  · intro j e hs hm hp
    simp [Client.Flush, hs, hm, hp]

/-- Witness for C1 at a concrete client and failing environments. -/
theorem flush_failure_preserves_buffer_spot :
    clientA.Flush envMarshalFail = ⟨clientA, some "marshal boom", []⟩ ∧
    clientA.Flush envPostFail = ⟨clientA, some "connection refused",
      [⟨clientA.apiURL, "application/json", marshalPayload clientA.payload⟩]⟩ :=
  ⟨(flush_failure_preserves_buffer clientA envMarshalFail).1 "marshal boom"
      (by decide) rfl,
   (flush_failure_preserves_buffer clientA envPostFail).2
      (marshalPayload clientA.payload) "connection refused" (by decide) rfl rfl⟩

/-- C4: `Flush` on an empty buffer returns `nil` and performs no POST; on a
non-empty buffer it errors exactly when marshalling or the POST transport
fails; any received response, whatever its status code, counts as success
and clears the buffer. -/
theorem flush_error_characterisation (c : Client) (env : Env) :
    (c.Size = 0 → c.Flush env = ⟨c, none, []⟩) ∧
    (c.Size ≠ 0 → ((c.Flush env).err.isSome ↔
        (∃ e, env.marshal c.payload = Except.error e) ∨
        (∃ j e, env.marshal c.payload = Except.ok j ∧
          env.post c.apiURL j = Except.error e))) ∧
    (∀ j resp, c.Size ≠ 0 → env.marshal c.payload = Except.ok j →
        env.post c.apiURL j = Except.ok resp →
        c.Flush env = ⟨{ c with payload := ⟨[]⟩ }, none,
          [⟨c.apiURL, "application/json", j⟩]⟩) := by
  refine ⟨?_, ?_, ?_⟩
  · intro hs
    simp [Client.Flush, hs]
  · intro hs
    cases hm : env.marshal c.payload with
    | error e => simp [Client.Flush, hs, hm]
    | ok j =>
      cases hp : env.post c.apiURL j with
      | error e => simp [Client.Flush, hs, hm, hp]
      | ok r => simp [Client.Flush, hs, hm, hp]
  · intro j resp hs hm hp
    simp [Client.Flush, hs, hm, hp]

/-- Witness for C4: empty-buffer no-op, transport-failure error, and a
response (status 200 here, but the theorem quantifies over all statuses)
clearing the buffer. -/
theorem flush_error_characterisation_spot :
    emptyA.Flush envOk = ⟨emptyA, none, []⟩ ∧
    ((clientA.Flush envPostFail).err.isSome ↔
        (∃ e, envPostFail.marshal clientA.payload = Except.error e) ∨
        (∃ j e, envPostFail.marshal clientA.payload = Except.ok j ∧
          envPostFail.post clientA.apiURL j = Except.error e)) ∧
    clientA.Flush envOk = ⟨{ clientA with payload := ⟨[]⟩ }, none,
      [⟨clientA.apiURL, "application/json", marshalPayload clientA.payload⟩]⟩ :=
  ⟨(flush_error_characterisation emptyA envOk).1 rfl,
   (flush_error_characterisation clientA envPostFail).2.1 (by decide),
   (flush_error_characterisation clientA envOk).2.2
      (marshalPayload clientA.payload) ⟨200, "ok"⟩ (by decide) rfl rfl⟩

/-- C5: when the flush triggered by the worker's threshold check fails,
the worker prints the error and resubmits the very same entry (identical
timestamp and message) to the back of the queue; the step hands no error
to any producer (`WorkerState.Log` and `workerStep` carry none). -/
theorem worker_retry_on_flush_failure (env : Env) (s : WorkerState)
    (t : Int) (m : String) (rest : List (Int × String)) (c' : Client)
    (er : String) (reqs : List PostRequest)
    (hq : s.queue = (t, m) :: rest)
    (hthr : (appendLine s.client t m).Size ≥ s.client.config.FlushLimit)
    (hfail : (appendLine s.client t m).Flush env = ⟨c', some er, reqs⟩) :
    workerStep env s = ⟨⟨c', rest ++ [(t, m)]⟩, reqs, [er]⟩ := by
  have hlog : s.client.log env t m = ⟨c', some er, reqs⟩ := by
    simp only [Client.log]
    rw [if_pos hthr]
    exact hfail
  exact workerStep_err env s (t, m) rest c' er reqs hq hlog

/-- Witness for C5: flush limit 2, one buffered line, one queued entry,
POST failing at transport level. -/
theorem worker_retry_on_flush_failure_spot :
    workerStep envPostFail ⟨clientA, [((5 : Int), "x")]⟩ =
      ⟨⟨appendLine clientA 5 "x", [((5 : Int), "x")]⟩,
        [⟨clientA.apiURL, "application/json",
          marshalPayload (appendLine clientA 5 "x").payload⟩],
        ["connection refused"]⟩ :=
  worker_retry_on_flush_failure envPostFail ⟨clientA, [(5, "x")]⟩ 5 "x" []
    (appendLine clientA 5 "x") "connection refused"
    [⟨clientA.apiURL, "application/json",
      marshalPayload (appendLine clientA 5 "x").payload⟩]
    rfl (by decide) rfl

/-- C9: a single transport failure of a threshold-triggered flush leaves
the just-appended line in the buffer and the entry in the queue, so the
worker's next (successful) pass appends it again: the next delivered
document contains that line at least twice. -/
theorem transient_failure_duplicates_line (cfg : Config) (url : URLData)
    (p : List logLineJSON) (t : Int) (m : String) (env1 env2 : Env)
    (j1 : JsonValue) (er : String) (resp : HTTPResponse)
    (hthr : (p.length : Int) + 1 ≥ cfg.FlushLimit)
    (hm1 : env1.marshal ⟨p ++ [mkLogLine cfg.LogFile t m]⟩ = Except.ok j1)
    (hp1 : env1.post url j1 = Except.error er)
    (hm2 : env2.marshal = goJSONMarshal)
    (hp2 : ∀ u j, env2.post u j = Except.ok resp) :
    (workerStep env1 ⟨⟨cfg, ⟨p⟩, url⟩, [(t, m)]⟩).state.client.payload.Lines
        = p ++ [mkLogLine cfg.LogFile t m] ∧
    (workerStep env1 ⟨⟨cfg, ⟨p⟩, url⟩, [(t, m)]⟩).state.queue = [(t, m)] ∧
    (workerStep env1 ⟨⟨cfg, ⟨p⟩, url⟩, [(t, m)]⟩).logged = [er] ∧
    (workerStep env2 (workerStep env1 ⟨⟨cfg, ⟨p⟩, url⟩, [(t, m)]⟩).state).state.client.payload.Lines
        = [] ∧
    (workerStep env2 (workerStep env1 ⟨⟨cfg, ⟨p⟩, url⟩, [(t, m)]⟩).state).requests
        = [⟨url, "application/json",
            marshalPayload ⟨p ++ [mkLogLine cfg.LogFile t m, mkLogLine cfg.LogFile t m]⟩⟩] ∧
    2 ≤ (p ++ [mkLogLine cfg.LogFile t m, mkLogLine cfg.LogFile t m]).count
          (mkLogLine cfg.LogFile t m) := by
  set l := mkLogLine cfg.LogFile t m with hl
  have hne1 : ¬ (⟨cfg, ⟨p ++ [l]⟩, url⟩ : Client).Size = 0 := by
    simp [Client.Size]
    omega
  have hflush1 : (⟨cfg, ⟨p ++ [l]⟩, url⟩ : Client).Flush env1 =
      ⟨⟨cfg, ⟨p ++ [l]⟩, url⟩, some er, [⟨url, "application/json", j1⟩]⟩ := by
    simp only [Client.Flush, if_neg hne1, hm1, hp1]
  have hlog1 : (⟨cfg, ⟨p⟩, url⟩ : Client).log env1 t m =
      ⟨⟨cfg, ⟨p ++ [l]⟩, url⟩, some er, [⟨url, "application/json", j1⟩]⟩ := by
    have hge : (appendLine (⟨cfg, ⟨p⟩, url⟩ : Client) t m).Size ≥
        (⟨cfg, ⟨p⟩, url⟩ : Client).config.FlushLimit := by
      rw [appendLine_size]
      simpa [Client.Size] using hthr
    simp only [Client.log]
    rw [if_pos hge]
    exact hflush1
  have hstep1 := workerStep_err env1 ⟨⟨cfg, ⟨p⟩, url⟩, [(t, m)]⟩ (t, m) []
      ⟨cfg, ⟨p ++ [l]⟩, url⟩ er [⟨url, "application/json", j1⟩] rfl hlog1
  have hne2 : ¬ (⟨cfg, ⟨(p ++ [l]) ++ [l]⟩, url⟩ : Client).Size = 0 := by
    simp [Client.Size]
    omega
  have hflush2 : (⟨cfg, ⟨(p ++ [l]) ++ [l]⟩, url⟩ : Client).Flush env2 =
      ⟨⟨cfg, ⟨[]⟩, url⟩, none,
        [⟨url, "application/json", marshalPayload ⟨(p ++ [l]) ++ [l]⟩⟩]⟩ := by
    simp only [Client.Flush, if_neg hne2, hm2, goJSONMarshal, hp2]
  have hlog2 : (⟨cfg, ⟨p ++ [l]⟩, url⟩ : Client).log env2 t m =
      ⟨⟨cfg, ⟨[]⟩, url⟩, none,
        [⟨url, "application/json", marshalPayload ⟨(p ++ [l]) ++ [l]⟩⟩]⟩ := by
    have hge : (appendLine (⟨cfg, ⟨p ++ [l]⟩, url⟩ : Client) t m).Size ≥
        (⟨cfg, ⟨p ++ [l]⟩, url⟩ : Client).config.FlushLimit := by
      rw [appendLine_size]
      have hsz : (⟨cfg, ⟨p ++ [l]⟩, url⟩ : Client).Size = (p.length : Int) + 1 := by
        simp [Client.Size]
      rw [hsz]
      simp only []
      omega
    simp only [Client.log]
    rw [if_pos hge]
    exact hflush2
  have hstep2 := workerStep_ok env2 ⟨⟨cfg, ⟨p ++ [l]⟩, url⟩, [(t, m)]⟩ (t, m) []
      ⟨cfg, ⟨[]⟩, url⟩ [⟨url, "application/json", marshalPayload ⟨(p ++ [l]) ++ [l]⟩⟩]
      rfl hlog2
  rw [hstep1]
  simp only [List.nil_append]
  rw [hstep2]
  refine ⟨by trivial, by trivial, by trivial, by trivial, by simp, ?_⟩
  have hcnt : (p ++ [l, l]).count l = p.count l + 2 := by
    simp [List.count_append, List.count_cons]
  omega

/-- Witness for C9: flush limit 1, empty buffer, entry `(0, "x")`, POST
failing once then succeeding. -/
theorem transient_failure_duplicates_line_spot :
    (workerStep envPostFail ⟨⟨cfgB, ⟨[]⟩, makeIngestURL cfgB⟩, [((0 : Int), "x")]⟩).state.client.payload.Lines
        = [] ++ [mkLogLine cfgB.LogFile 0 "x"] ∧
    (workerStep envPostFail ⟨⟨cfgB, ⟨[]⟩, makeIngestURL cfgB⟩, [((0 : Int), "x")]⟩).state.queue
        = [((0 : Int), "x")] ∧
    (workerStep envPostFail ⟨⟨cfgB, ⟨[]⟩, makeIngestURL cfgB⟩, [((0 : Int), "x")]⟩).logged
        = ["connection refused"] ∧
    (workerStep envOk (workerStep envPostFail ⟨⟨cfgB, ⟨[]⟩, makeIngestURL cfgB⟩, [((0 : Int), "x")]⟩).state).state.client.payload.Lines
        = [] ∧
    (workerStep envOk (workerStep envPostFail ⟨⟨cfgB, ⟨[]⟩, makeIngestURL cfgB⟩, [((0 : Int), "x")]⟩).state).requests
        = [⟨makeIngestURL cfgB, "application/json",
            marshalPayload ⟨[] ++ [mkLogLine cfgB.LogFile 0 "x", mkLogLine cfgB.LogFile 0 "x"]⟩⟩] ∧
    2 ≤ ([] ++ [mkLogLine cfgB.LogFile 0 "x", mkLogLine cfgB.LogFile 0 "x"]).count
          (mkLogLine cfgB.LogFile 0 "x") :=
  transient_failure_duplicates_line cfgB (makeIngestURL cfgB) [] 0 "x"
    envPostFail envOk (marshalPayload ⟨[] ++ [mkLogLine cfgB.LogFile 0 "x"]⟩)
    "connection refused" ⟨200, "ok"⟩ (by decide) rfl rfl rfl (fun _ _ => rfl)

/-- C6 counterexample: at the valid Go `int` value `FlushLimit = 10^18`,
the product `10 * FlushLimit` wraps to a negative capacity, `makechan`
panics, and no client — in particular none with queue capacity
`10 × flushLimit` — is returned. -/
theorem newClient_overflow_wraps_negative :
    0 ≤ (⟨"", "f", "", 1000000000000000000⟩ : Config).FlushLimit ∧
    wrap64 (10 * effectiveFlushLimit 1000000000000000000) < 0 ∧
    NewClient maxChanCap64 ⟨"", "f", "", 1000000000000000000⟩ =
      Except.error "makechan: size out of range" :=
  ⟨by decide, by decide, rfl⟩

/-- C6 (amended): `NewClient` hands back a client — with no error value,
even for empty `APIKey`/`Hostname` — for every configuration whose
non-negative flush limit keeps `10 × effective limit` within the Go `int`
range and within the platform's allocatable capacity; the flush limit is
defaulted to 5000 exactly when configured as 0, and the channel capacity
is exactly ten times the effective limit.  (When `10 × flushLimit`
overflows, the product wraps negative and construction panics instead:
`newClient_overflow_wraps_negative`.) -/
theorem newClient_total_defaults (maxCap : Int) (cfg : Config)
    (h : 0 ≤ cfg.FlushLimit)
    (hfit : 10 * effectiveFlushLimit cfg.FlushLimit ≤ int64Max)
    (halloc : 10 * effectiveFlushLimit cfg.FlushLimit ≤ maxCap) :
    ∃ ci : ClientInit, NewClient maxCap cfg = Except.ok ci ∧
      ci.client.config.FlushLimit =
        (if cfg.FlushLimit = 0 then 5000 else cfg.FlushLimit) ∧
      ci.queueCapacity = 10 * ci.client.config.FlushLimit ∧
      ci.client.config.APIKey = cfg.APIKey ∧
      ci.client.config.LogFile = cfg.LogFile ∧
      ci.client.config.Hostname = cfg.Hostname ∧
      ci.client.payload.Lines = [] := by
  have he : effectiveFlushLimit cfg.FlushLimit =
      (if cfg.FlushLimit = 0 then 5000 else cfg.FlushLimit) := by
    simp [effectiveFlushLimit, DefaultFlushLimit]
  have hpos : 0 ≤ effectiveFlushLimit cfg.FlushLimit := by
    rw [he]
    split <;> omega
  have hwrap : wrap64 (10 * effectiveFlushLimit cfg.FlushLimit) =
      10 * effectiveFlushLimit cfg.FlushLimit := by
    apply wrap64_eq_self _ _ hfit
    unfold int64Min
    omega
  have hchan : ¬ (wrap64 (10 * effectiveFlushLimit cfg.FlushLimit) < 0 ∨
      maxCap < wrap64 (10 * effectiveFlushLimit cfg.FlushLimit)) := by
    rw [hwrap]
    push_neg
    exact ⟨by omega, by omega⟩
  refine ⟨⟨⟨{ cfg with FlushLimit := effectiveFlushLimit cfg.FlushLimit }, ⟨[]⟩,
      makeIngestURL { cfg with FlushLimit := effectiveFlushLimit cfg.FlushLimit }⟩,
      wrap64 (10 * effectiveFlushLimit cfg.FlushLimit)⟩,
    by simp [NewClient, makeChan, hchan], he, hwrap, rfl, rfl, rfl, rfl⟩

/-- Witness for C6: empty `APIKey` and `Hostname`, flush limit left 0, on
the representative 64-bit platform bound. -/
theorem newClient_total_defaults_spot :
    (0 ≤ cfgEmpty.FlushLimit ∧
     10 * effectiveFlushLimit cfgEmpty.FlushLimit ≤ int64Max ∧
     10 * effectiveFlushLimit cfgEmpty.FlushLimit ≤ maxChanCap64) ∧
    (∃ ci : ClientInit, NewClient maxChanCap64 cfgEmpty = Except.ok ci ∧
      ci.client.config.FlushLimit =
        (if cfgEmpty.FlushLimit = 0 then 5000 else cfgEmpty.FlushLimit) ∧
      ci.queueCapacity = 10 * ci.client.config.FlushLimit ∧
      ci.client.config.APIKey = cfgEmpty.APIKey ∧
      ci.client.config.LogFile = cfgEmpty.LogFile ∧
      ci.client.config.Hostname = cfgEmpty.Hostname ∧
      ci.client.payload.Lines = []) :=
  ⟨⟨by decide, by decide, by decide⟩,
   newClient_total_defaults maxChanCap64 cfgEmpty (by decide) (by decide) (by decide)⟩

/-- C10 counterexample: at `FlushLimit = -1844674407370955161` the Go
product `10 * FlushLimit` wraps past the minimum `int` to `+6`, `make`
succeeds, and `NewClient` returns a usable client — so construction does
not fail for every negative configured limit. -/
theorem newClient_negative_wrap_succeeds :
    (⟨"k", "f", "h", -1844674407370955161⟩ : Config).FlushLimit < 0 ∧
    wrap64 (10 * effectiveFlushLimit (-1844674407370955161)) = 6 ∧
    NewClient maxChanCap64 ⟨"k", "f", "h", -1844674407370955161⟩ =
      Except.ok ⟨⟨⟨"k", "f", "h", -1844674407370955161⟩, ⟨[]⟩,
        makeIngestURL ⟨"k", "f", "h", -1844674407370955161⟩⟩, 6⟩ :=
  ⟨by decide, by decide, rfl⟩

/-- C10 (amended): the default is substituted only for the exact value 0,
so a negative configured flush limit is kept; whenever the product
`10 * FlushLimit` does not underflow the Go `int` range, the attempted
channel capacity is negative and construction dies in the runtime's
`makechan` panic instead of yielding a client.  (For larger-magnitude
negative limits the product wraps non-negative and construction can
succeed: `newClient_negative_wrap_succeeds`.) -/
theorem negative_flushLimit_panics (maxCap : Int) (cfg : Config)
    (h : cfg.FlushLimit < 0)
    (hfit : int64Min ≤ 10 * cfg.FlushLimit) :
    effectiveFlushLimit cfg.FlushLimit = cfg.FlushLimit ∧
    wrap64 (10 * effectiveFlushLimit cfg.FlushLimit) < 0 ∧
    NewClient maxCap cfg = Except.error "makechan: size out of range" := by
  have h0 : ¬ cfg.FlushLimit = 0 := by omega
  have he : effectiveFlushLimit cfg.FlushLimit = cfg.FlushLimit := by
    simp [effectiveFlushLimit, h0]
  have hwrap : wrap64 (10 * effectiveFlushLimit cfg.FlushLimit) =
      10 * cfg.FlushLimit := by
    rw [he]
    apply wrap64_eq_self _ hfit
    unfold int64Max
    omega
  have hneg : wrap64 (10 * effectiveFlushLimit cfg.FlushLimit) < 0 := by
    rw [hwrap]
    omega
  refine ⟨he, hneg, ?_⟩
  have hcond : wrap64 (10 * effectiveFlushLimit cfg.FlushLimit) < 0 ∨
      maxCap < wrap64 (10 * effectiveFlushLimit cfg.FlushLimit) := Or.inl hneg
  simp [NewClient, makeChan, hcond]

/-- Witness for C10 at configured flush limit `-1` (no wrap). -/
theorem negative_flushLimit_panics_spot :
    (cfgNeg.FlushLimit < 0 ∧ int64Min ≤ 10 * cfgNeg.FlushLimit) ∧
    (effectiveFlushLimit cfgNeg.FlushLimit = cfgNeg.FlushLimit ∧
     wrap64 (10 * effectiveFlushLimit cfgNeg.FlushLimit) < 0 ∧
     NewClient maxChanCap64 cfgNeg = Except.error "makechan: size out of range") :=
  ⟨⟨by decide, by decide⟩,
   negative_flushLimit_panics maxChanCap64 cfgNeg (by decide) (by decide)⟩

/-- C7: the recorded timestamp is the Unix-nanosecond time divided by
1,000,000 rounding toward zero: the sign of `t` times the floor division
of its absolute value. -/
theorem timestamp_truncated_millis (file : String) (t : Int) (m : String) :
    (mkLogLine file t m).Timestamp = t.sign * ((t.natAbs / 1000000 : Nat) : Int) := by
  unfold mkLogLine
  rcases t with n | n
  · cases n with
    | zero => rfl
    | succ k =>
      show Int.ofNat ((k + 1) / 1000000) = 1 * ((k + 1 : Nat) / 1000000 : Nat)
      simp
  · show -Int.ofNat ((n + 1) / 1000000) = -1 * ((n + 1 : Nat) / 1000000 : Nat)
    simp

/-- C8: `Close` is definitionally one final `Flush` — identical resulting
client, returned error and attempted POSTs, for every client and
environment. -/
theorem close_is_flush (c : Client) (env : Env) : c.Close env = c.Flush env := rfl

end Logdna
